import Mathlib

/-!
Verification of the live-query matcher in `crates/corro-types/src/pubsub.rs`.

The Rust source is shallowly embedded: pure computations become Lean
functions, the SQL AST of the external `sqlite3_parser` crate is embedded as
a mutual inductive restricted to the constructors the source matches on, and
interactions with the embedded database engine / channels are modelled by
explicit "engine" records that list the outcome of each external call in
program order.  Rust functions that can panic (`todo!`, `unreachable!`,
`.expect`) return an `Outcome` with a dedicated `panic` constructor.
Recursive AST walks carry a fuel parameter (`Outcome.outOfFuel` is a model
artifact only reachable when the fuel is smaller than the recursion depth).
-/

set_option maxHeartbeats 1000000

namespace Corrosion

/-- Values of the embedded database (`SqliteValue` in `corro-types`).  All of
the matcher code treats values as opaque cells, so the `real` payload is
carried as an uninterpreted string. -/
inductive SqliteValue where
  | null
  | integer (i : Int)
  | real (repr : String)
  | text (s : String)
  | blob (bytes : List Nat)
deriving DecidableEq

/-- `ChangeType` from `pubsub.rs` (lines 259-264). -/
inductive ChangeType where
  | upsert
  | delete
deriving DecidableEq

/-- Modelled from the spec: `RowResult` lives in `crate::api`, which is not
among the provided sources.  Spec section 3 lists the variants: `Columns`,
`Row { rowid, change_type, cells }`, `EndOfQuery`, `Error`. -/
inductive RowResult where
  | columns (names : List String)
  | row (rowid : Int) (changeType : ChangeType) (cells : List SqliteValue)
  | endOfQuery
  | error (msg : String)
deriving DecidableEq

/-- `QualifiedName` of the external `sqlite3_parser` AST: the parts used by
the source are the table name and the optional alias field. -/
structure QualifiedName where
  name : String
  aliasName : Option String
deriving DecidableEq

/-- `As` of the external parser AST: explicit `AS x` or elided alias. -/
inductive AstAs where
  | asAlias (n : String)
  | elided (n : String)
deriving DecidableEq

/-- Binary operators of the parser AST; only `AND` and `IS` are constructed
by the source, all others are carried opaquely. -/
inductive Operator where
  | and
  | is
  | eq
  | other (s : String)
deriving DecidableEq

mutual
/-- The fragment of `sqlite3_parser::ast::Expr` matched by
`extract_expr_columns` (pubsub.rs lines 902-1019).  Constructors that the
source handles through its final catch-all `_ => {}` arm are represented by
`id`, `literal` and `var`. -/
inductive Expr where
  | qualified (tbl col : String)
  | doublyQualified (db tbl col : String)
  | name (n : String)
  | between (lhs lo hi : Expr)
  | binary (lhs : Expr) (op : Operator) (rhs : Expr)
  | caseE (base : Option Expr) (whenThen : List (Expr × Expr)) (elseE : Option Expr)
  | cast (e : Expr) (ty : String)
  | collate (e : Expr) (coll : String)
  | existsSub (sel : Select)
  | functionCall (fname : String) (args : Option (List Expr))
  | inList (lhs : Expr) (notIn : Bool) (rhs : Option (List Expr))
  | inSelect (lhs : Expr) (notIn : Bool) (rhs : Select)
  | inTable (lhs : Expr) (notIn : Bool) (tbl : String) (args : Option (List Expr))
  | isNull (e : Expr)
  | like (lhs rhs : Expr)
  | notNull (e : Expr)
  | parenthesized (es : List Expr)
  | subquery (sel : Select)
  | unary (op : String) (e : Expr)
  | id (s : String)
  | literal (s : String)
  | var (s : String)

/-- `sqlite3_parser::ast::Select`, keeping only the `body.select` part the
source reads (compounds, ordering and limits are never inspected). -/
inductive Select where
  | mk (body : SelectBody)

inductive SelectBody where
  | mk (select : OneSelect)

/-- `OneSelect`: the `Select { columns, from, where_clause, .. }` arm plus a
`values` stand-in for the arms the source ignores. -/
inductive OneSelect where
  | select (columns : List ResultColumn) (fromClause : Option FromClause)
      (whereClause : Option Expr)
  | values

inductive FromClause where
  | mk (sel : Option SelectTable) (joins : Option (List JoinedSelectTable))

/-- `SelectTable`: the source only handles `Table(name, alias, _)`;
`TableCall`, sub-selects etc. fall into the logged-and-ignored branch,
represented by `unsupported`. -/
inductive SelectTable where
  | table (qname : QualifiedName) (asAlias : Option AstAs)
  | unsupported

inductive JoinedSelectTable where
  | mk (table : SelectTable) (constraint : Option JoinConstraint)

inductive JoinConstraint where
  | onE (e : Expr)
  | usingCols (names : List String)

inductive ResultColumn where
  | expr (e : Expr) (asClause : Option AstAs)
  | star
  | tableStar (tbl : String)
end

/-- `Stmt`: the source only distinguishes `Select` from everything else. -/
inductive Stmt where
  | select (sel : Select)
  | unsupported

/-- `Cmd`: `Stmt` versus the explain variants (which yield
`StatementRequired` in `Matcher::new`). -/
inductive Cmd where
  | stmt (s : Stmt)
  | explainLike

/-- `MatcherError` (pubsub.rs lines 1118-1148).  External error payloads
(`rusqlite::Error`, lexer errors) are carried as strings. -/
inductive MatcherError where
  | lexer (msg : String)
  | statementRequired
  | unsupportedStatement
  | tableRequired
  | sqlite (msg : String)
  | tableNotFound (tbl : String)
  | noPrimaryKey (tbl : String)
  | aggPrimaryKeyMissing (tbl col : String)
  | joinOnExprUnsupported (tbl : String) (e : Expr)
  | unsupportedExpr (e : Expr)
  | tableStarNotFound (tbl : String)
  | missingPrimaryKeys
  | changeQueueClosedOrFull
  | changeReceiverClosed

/-- Rendering of `MatcherError` following the `thiserror` attributes.  The
two variants whose Rust rendering interpolates a `Debug` dump of an
expression are rendered without that dump (no claim depends on it). -/
def MatcherError.message : MatcherError → String
  | .lexer m => m
  | .statementRequired => "one statement is required for matching"
  | .unsupportedStatement => "unsupported statement"
  | .tableRequired => "at least 1 table is required in FROM / JOIN clause"
  | .sqlite m => m
  | .tableNotFound t => "table not found in schema: " ++ t
  | .noPrimaryKey t => "no primary key for table: " ++ t
  | .aggPrimaryKeyMissing t c => "aggregate missing primary key " ++ t ++ "." ++ c
  | .joinOnExprUnsupported t _ =>
      "JOIN .. ON expression is not supported for join on table '" ++ t ++ "'"
  | .unsupportedExpr _ => "expression is not supported"
  | .tableStarNotFound t => "could not find table for " ++ t ++ ".* in corrosion's schema"
  | .missingPrimaryKeys => "missing primary keys, this shouldn't happen"
  | .changeQueueClosedOrFull => "change queue has been closed or is full"
  | .changeReceiverClosed => "change receiver is closed"

/-- Result of a Rust computation that may fail with a `MatcherError` or
panic.  `outOfFuel` is a model artifact of the fuelled AST recursion. -/
inductive Outcome (α : Type) where
  | ok (a : α)
  | err (e : MatcherError)
  | panic (msg : String)
  | outOfFuel

def Outcome.bind {α β : Type} : Outcome α → (α → Outcome β) → Outcome β
  | .ok a, f => f a
  | .err e, _ => .err e
  | .panic m, _ => .panic m
  | .outOfFuel, _ => .outOfFuel

def Outcome.isOk {α : Type} : Outcome α → Bool
  | .ok _ => true
  | _ => false

/-- Lift `Result<T, MatcherError>` (used by `table_to_expr`) into `Outcome`. -/
def Outcome.ofExcept {α : Type} : Except MatcherError α → Outcome α
  | .ok a => .ok a
  | .error e => .err e

/-- Association-list update with `HashMap::insert` semantics (replace the
existing binding, otherwise append). -/
def hmInsertL (m : List (String × String)) (k v : String) : List (String × String) :=
  match m with
  | [] => [(k, v)]
  | (k', v') :: rest => if k' = k then (k, v) :: rest else (k', v') :: hmInsertL rest k v

/-- Association-list lookup (`HashMap::get` / `IndexMap::get`). -/
def slookup {α : Type} : List (String × α) → String → Option α
  | [], _ => none
  | (k', v) :: rest, k => if k' = k then some v else slookup rest k

/-- `table_columns.entry(k).or_default()`: ensure the key exists, preserving
`IndexMap` insertion order. -/
def tcEntryL (tc : List (String × List String)) (k : String) : List (String × List String) :=
  match tc with
  | [] => [(k, [])]
  | (k', cols) :: rest =>
      if k' = k then (k', cols) :: rest else (k', cols) :: tcEntryL rest k

/-- `table_columns.entry(k).or_default().insert(col)`: the per-table column
collection is a `HashSet`, modelled as a duplicate-free list. -/
def tcInsertL (tc : List (String × List String)) (k col : String) :
    List (String × List String) :=
  match tc with
  | [] => [(k, [col])]
  | (k', cols) :: rest =>
      if k' = k then (k', if col ∈ cols then cols else cols ++ [col]) :: rest
      else (k', cols) :: tcInsertL rest k col

/-- `aliases.iter().find_map(|(alias, actual)| (actual == table).then_some(alias))`
as used by `Matcher::new` and `table_to_expr`. -/
def reverseAliasLookup (aliases : List (String × String)) (table : String) : Option String :=
  match aliases with
  | [] => none
  | (al, actual) :: rest =>
      if actual = table then some al else reverseAliasLookup rest table

/-- `ParsedSelect` (pubsub.rs lines 792-798).  An inductive rather than a
structure because `children` is recursive. -/
inductive ParsedSelect where
  | mk (table_columns : List (String × List String)) (aliases : List (String × String))
      (columns : List ResultColumn) (children : List ParsedSelect)

def ParsedSelect.table_columns : ParsedSelect → List (String × List String)
  | .mk tc _ _ _ => tc

def ParsedSelect.aliases : ParsedSelect → List (String × String)
  | .mk _ al _ _ => al

def ParsedSelect.columns : ParsedSelect → List ResultColumn
  | .mk _ _ cols _ => cols

def ParsedSelect.children : ParsedSelect → List ParsedSelect
  | .mk _ _ _ ch => ch

def ParsedSelect.default : ParsedSelect := .mk [] [] [] []

def ParsedSelect.tcEntry : ParsedSelect → String → ParsedSelect
  | .mk tc al cols ch, k => .mk (tcEntryL tc k) al cols ch

def ParsedSelect.tcInsert : ParsedSelect → String → String → ParsedSelect
  | .mk tc al cols ch, k, col => .mk (tcInsertL tc k col) al cols ch

def ParsedSelect.aliasInsert : ParsedSelect → String → String → ParsedSelect
  | .mk tc al cols ch, k, v => .mk tc (hmInsertL al k v) cols ch

def ParsedSelect.pushColumn : ParsedSelect → ResultColumn → ParsedSelect
  | .mk tc al cols ch, c => .mk tc al (cols ++ [c]) ch

def ParsedSelect.pushChild : ParsedSelect → ParsedSelect → ParsedSelect
  | .mk tc al cols ch, child => .mk tc al cols (ch ++ [child])

/-- Modelled from the spec: `NormalizedTable` lives in `crate::schema`, not
among the provided sources.  Spec section 3: a table has a name, an ordered
column map (only the keys are read by the matcher) and an ordered primary
key. -/
structure NormalizedTable where
  name : String
  columns : List String
  pk : List String

/-- Modelled from the spec: `NormalizedSchema` maps table names to
`NormalizedTable`s. -/
structure NormalizedSchema where
  tables : List (String × NormalizedTable)

/-- Alias recording for a `SelectTable::Table(name, alias, _)` arm
(pubsub.rs lines 819-823 and 850-854): an explicit or elided `AS` wins,
otherwise the `QualifiedName`'s own alias field is used. -/
def recordTableAlias (parsed : ParsedSelect) (qname : QualifiedName)
    (asAlias : Option AstAs) : ParsedSelect :=
  match asAlias with
  | some (.asAlias a) => parsed.aliasInsert a qname.name
  | some (.elided a) => parsed.aliasInsert a qname.name
  | none =>
      match qname.aliasName with
      | some a => parsed.aliasInsert a qname.name
      | none => parsed

/-- Star expansion inside `extract_columns`: insert each schema column into
`table_columns[tableName]` and push the aliased projection column `col_i`.
`mkExpr` builds `Expr::Name(col)` for `*` and `Expr::Qualified(tbl, col)` for
`tbl.*`, matching the two Rust arms. -/
def pushStarCols (parsed : ParsedSelect) (tableName : String) (mkExpr : String → Expr)
    (cols : List String) (i : Nat) : ParsedSelect × Nat :=
  match cols with
  | [] => (parsed, i)
  | c :: rest =>
      pushStarCols
        ((parsed.tcInsert tableName c).pushColumn
          (.expr (mkExpr c) (some (.asAlias ("col_" ++ toString i)))))
        tableName mkExpr rest (i + 1)

mutual
/-- `extract_expr_columns` (pubsub.rs lines 902-1019).  `Expr::Name` hits the
source's `todo!()`, `Expr::InTable` returns `UnsupportedExpr`; the arms the
source lists under "no column names in there" fall into `.ok parsed`. -/
def extract_expr_columns (fuel : Nat) (e : Expr) (schema : NormalizedSchema)
    (parsed : ParsedSelect) : Outcome ParsedSelect :=
  match e with
  | .qualified tbl col =>
      let resolved := (slookup parsed.aliases tbl).getD tbl
      .ok (parsed.tcInsert resolved col)
  | .doublyQualified db tbl col =>
      if db = "main" then
        let resolved := (slookup parsed.aliases tbl).getD tbl
        .ok (parsed.tcInsert resolved col)
      else .ok parsed
  | .name _ => .panic "not yet implemented"
  | .inTable lhs notIn tbl args => .err (.unsupportedExpr (.inTable lhs notIn tbl args))
  | .between lhs _ _ =>
      match fuel with
      | 0 => .outOfFuel
      | fuel + 1 => extract_expr_columns fuel lhs schema parsed
  | .binary lhs _ rhs =>
      match fuel with
      | 0 => .outOfFuel
      | fuel + 1 =>
          (extract_expr_columns fuel lhs schema parsed).bind fun p =>
            extract_expr_columns fuel rhs schema p
  | .caseE base whenThen elseE =>
      match fuel with
      | 0 => .outOfFuel
      | fuel + 1 =>
          (match base with
           | some b => extract_expr_columns fuel b schema parsed
           | none => .ok parsed).bind fun p =>
          (extract_when_then fuel whenThen schema p).bind fun p2 =>
          match elseE with
          | some ee => extract_expr_columns fuel ee schema p2
          | none => .ok p2
  | .cast e0 _ =>
      match fuel with
      | 0 => .outOfFuel
      | fuel + 1 => extract_expr_columns fuel e0 schema parsed
  | .collate e0 _ =>
      match fuel with
      | 0 => .outOfFuel
      | fuel + 1 => extract_expr_columns fuel e0 schema parsed
  | .existsSub sel =>
      match fuel with
      | 0 => .outOfFuel
      | fuel + 1 =>
          (extract_select_columns fuel sel schema).bind fun child =>
            .ok (parsed.pushChild child)
  | .functionCall _ args =>
      match fuel with
      | 0 => .outOfFuel
      | fuel + 1 =>
          match args with
          | some es => extract_expr_list fuel es schema parsed
          | none => .ok parsed
  | .inList lhs _ rhs =>
      match fuel with
      | 0 => .outOfFuel
      | fuel + 1 =>
          (extract_expr_columns fuel lhs schema parsed).bind fun p =>
            match rhs with
            | some es => extract_expr_list fuel es schema p
            | none => .ok p
  | .inSelect lhs _ rhs =>
      match fuel with
      | 0 => .outOfFuel
      | fuel + 1 =>
          (extract_expr_columns fuel lhs schema parsed).bind fun p =>
            (extract_select_columns fuel rhs schema).bind fun child =>
              .ok (p.pushChild child)
  | .isNull e0 =>
      match fuel with
      | 0 => .outOfFuel
      | fuel + 1 => extract_expr_columns fuel e0 schema parsed
  | .like lhs rhs =>
      match fuel with
      | 0 => .outOfFuel
      | fuel + 1 =>
          (extract_expr_columns fuel lhs schema parsed).bind fun p =>
            extract_expr_columns fuel rhs schema p
  | .notNull e0 =>
      match fuel with
      | 0 => .outOfFuel
      | fuel + 1 => extract_expr_columns fuel e0 schema parsed
  | .parenthesized es =>
      match fuel with
      | 0 => .outOfFuel
      | fuel + 1 => extract_expr_list fuel es schema parsed
  | .subquery sel =>
      match fuel with
      | 0 => .outOfFuel
      | fuel + 1 =>
          (extract_select_columns fuel sel schema).bind fun child =>
            .ok (parsed.pushChild child)
  | .unary _ e0 =>
      match fuel with
      | 0 => .outOfFuel
      | fuel + 1 => extract_expr_columns fuel e0 schema parsed
  | .id _ => .ok parsed
  | .literal _ => .ok parsed
  | .var _ => .ok parsed

/-- Iteration of `extract_expr_columns` over an argument list (the `for`
loops of the `FunctionCall`, `InList` and `Parenthesized` arms). -/
def extract_expr_list (fuel : Nat) (es : List Expr) (schema : NormalizedSchema)
    (parsed : ParsedSelect) : Outcome ParsedSelect :=
  match es with
  | [] => .ok parsed
  | e :: rest =>
      match fuel with
      | 0 => .outOfFuel
      | fuel + 1 =>
          (extract_expr_columns fuel e schema parsed).bind fun p =>
            extract_expr_list fuel rest schema p

/-- The `Case` arm's loop: only the `when` expression of each pair is
walked (the source leaves a NOTE asking whether `then` should be parsed). -/
def extract_when_then (fuel : Nat) (ps : List (Expr × Expr)) (schema : NormalizedSchema)
    (parsed : ParsedSelect) : Outcome ParsedSelect :=
  match ps with
  | [] => .ok parsed
  | p :: rest =>
      match fuel with
      | 0 => .outOfFuel
      | fuel + 1 =>
          (extract_expr_columns fuel p.1 schema parsed).bind fun p2 =>
            extract_when_then fuel rest schema p2

/-- `extract_select_columns` (pubsub.rs lines 800-900).  Note two
faithfully-kept quirks: the `where_clause` is only walked when a `FROM`
clause is present, and a `from.select` of `None` hits the source's
`unreachable!()`. -/
def extract_select_columns (fuel : Nat) (sel : Select) (schema : NormalizedSchema) :
    Outcome ParsedSelect :=
  match sel with
  | .mk (.mk os) =>
      match os with
      | .values => .ok ParsedSelect.default
      | .select columns fromClause whereClause =>
          match fromClause with
          | none =>
              match fuel with
              | 0 => .outOfFuel
              | fuel + 1 => extract_columns fuel columns 0 none schema ParsedSelect.default
          | some fr =>
              match fuel with
              | 0 => .outOfFuel
              | fuel + 1 =>
                  (process_from_clause fuel fr whereClause schema ParsedSelect.default).bind
                    fun pft => extract_columns fuel columns 0 pft.2 schema pft.1

/-- The body of the `Some(from)` arm of `extract_select_columns`: handle the
primary `FROM` table, then the joins, then the `WHERE` clause; returns the
updated state and the `from_table` name used for `*` expansion. -/
def process_from_clause (fuel : Nat) (fr : FromClause) (whereClause : Option Expr)
    (schema : NormalizedSchema) (parsed : ParsedSelect) :
    Outcome (ParsedSelect × Option String) :=
  match fr with
  | .mk sel joins =>
      (Outcome.bind
        (match sel with
         | some st =>
             match st with
             | .table qname asAlias =>
                 if (slookup schema.tables qname.name).isSome then
                   .ok (((recordTableAlias parsed qname asAlias).tcEntry qname.name),
                        some qname.name)
                 else .err (.tableNotFound qname.name)
             | .unsupported => .ok (parsed, none)
         | none => .panic "internal error: entered unreachable code")
        (fun pft =>
          Outcome.bind
            (match joins with
             | some js =>
                 match fuel with
                 | 0 => .outOfFuel
                 | fuel + 1 => process_joins fuel js schema pft.1
             | none => .ok pft.1)
            (fun p2 =>
              Outcome.bind
                (match whereClause with
                 | some w =>
                     match fuel with
                     | 0 => .outOfFuel
                     | fuel + 1 => extract_expr_columns fuel w schema p2
                 | none => .ok p2)
                (fun p3 => .ok (p3, pft.2)))))

/-- The joins loop of `extract_select_columns` (lines 845-885).  Faithfully
kept: a join table is recorded WITHOUT any schema existence check; a
non-`Table` join target skips its constraint entirely. -/
def process_joins (fuel : Nat) (js : List JoinedSelectTable) (schema : NormalizedSchema)
    (parsed : ParsedSelect) : Outcome ParsedSelect :=
  match js with
  | [] => .ok parsed
  | .mk tblSel constraint :: rest =>
      match fuel with
      | 0 => .outOfFuel
      | fuel + 1 =>
          match tblSel with
          | .unsupported => process_joins fuel rest schema parsed
          | .table qname asAlias =>
              let p1 := (recordTableAlias parsed qname asAlias).tcEntry qname.name
              (match constraint with
               | some (.onE e) => extract_expr_columns fuel e schema p1
               | some (.usingCols names) =>
                   .ok (names.foldl (fun p n => p.tcInsert qname.name n) p1)
               | none => .ok p1).bind fun p2 =>
              process_joins fuel rest schema p2

/-- `extract_columns` (pubsub.rs lines 1021-1083) with the running alias
counter `i` made explicit (the Rust function initialises it to 0). -/
def extract_columns (fuel : Nat) (cols : List ResultColumn) (i : Nat)
    (fromTable : Option String) (schema : NormalizedSchema) (parsed : ParsedSelect) :
    Outcome ParsedSelect :=
  match cols with
  | [] => .ok parsed
  | c :: rest =>
      match fuel with
      | 0 => .outOfFuel
      | fuel + 1 =>
          match c with
          | .expr e _ =>
              (extract_expr_columns fuel e schema parsed).bind fun p =>
                extract_columns fuel rest (i + 1) fromTable schema
                  (p.pushColumn (.expr e (some (.asAlias ("col_" ++ toString i)))))
          | .star =>
              match fromTable with
              | some tblName =>
                  match slookup schema.tables tblName with
                  | some table =>
                      let pi := pushStarCols (parsed.tcEntry table.name) table.name
                        (fun cn => .name cn) table.columns i
                      extract_columns fuel rest pi.2 fromTable schema pi.1
                  | none => .err (.tableStarNotFound tblName)
              | none => .panic "internal error: entered unreachable code"
          | .tableStar tblName =>
              let nm := (slookup parsed.aliases tblName).getD tblName
              match slookup schema.tables nm with
              | some table =>
                  let pi := pushStarCols (parsed.tcEntry table.name) table.name
                    (fun cn => .qualified tblName cn) table.columns i
                  extract_columns fuel rest pi.2 fromTable schema pi.1
              | none => .err (.tableStarNotFound nm)
end

/-- `expr_from_pk` (pubsub.rs lines 1150-1156): `table.pk IS ?`. -/
def expr_from_pk (table pk : String) : Option Expr :=
  some (.binary (.qualified table pk) .is (.id "?"))

/-- The accumulation loop of `table_to_expr` (lines 1105-1113): each further
PK column is ANDed on the right; note the source's `ok_or_else` re-uses
`first` for the error payload inside the loop. -/
def pk_fold (tblName first : String) (e : Expr) (pkList : List String) :
    Except MatcherError Expr :=
  match pkList with
  | [] => .ok e
  | pk :: rest =>
      match expr_from_pk tblName pk with
      | none => .error (.aggPrimaryKeyMissing tblName first)
      | some e2 => pk_fold tblName first (.binary e .and e2) rest

/-- `table_to_expr` (pubsub.rs lines 1085-1116). -/
def table_to_expr (aliases : List (String × String)) (tbl : NormalizedTable)
    (table : String) : Except MatcherError Expr :=
  let tbl_name := (reverseAliasLookup aliases table).getD table
  match tbl.pk with
  | [] => .error (.noPrimaryKey tbl_name)
  | first :: rest =>
      match expr_from_pk tbl_name first with
      | none => .error (.aggPrimaryKeyMissing tbl_name first)
      | some e0 => pk_fold tbl_name first e0 rest

/-- Spec-side definition, following section 4.2 step 2 verbatim: the
PK-filter for table `T` is the conjunction over `T.pk_i IS ?` of all PK
columns of `T`. -/
def specPkFilter (tblName : String) (first : String) (rest : List String) : Expr :=
  rest.foldl
    (fun acc pk => .binary acc .and (.binary (.qualified tblName pk) .is (.id "?")))
    (.binary (.qualified tblName first) .is (.id "?"))

/-- `MatcherStmt` (pubsub.rs lines 274-278). -/
structure MatcherStmt where
  new_query : String
  temp_query : String
deriving DecidableEq

/-- `MatcherCmd` (pubsub.rs lines 266-269). -/
inductive MatcherCmd where
  | processChange (stmt : MatcherStmt) (pks : List SqliteValue)
  | unsubscribe
deriving DecidableEq

/-- Modelled from the spec: `AggregateChange` lives in `crate::filters`, not
among the provided sources.  Spec section 3: it carries the table name and
an ordered map of primary-key values (only these two fields are read by
`Matcher::process_change`). -/
structure AggregateChange where
  table : String
  pk : List (String × SqliteValue)

/-- Rust `String::pop()`: remove the last character. -/
def strPop (s : String) : String := ⟨s.data.dropLast⟩

/-- The `col_0 .. col_{n-1}` alias list used throughout `Matcher::new` and
`Matcher::handle_change`. -/
def colRange (n : Nat) : List String :=
  (List.range n).map (fun i => "col_" ++ toString i)

/-- `pks.entry(k).or_default().push(v)` on the `IndexMap` of synthetic PK
aliases. -/
def pksAppend (pks : List (String × List String)) (k v : String) :
    List (String × List String) :=
  match pks with
  | [] => [(k, [v])]
  | (k', vs) :: rest =>
      if k' = k then (k', vs ++ [v]) :: rest else (k', vs) :: pksAppend rest k v

/-- Inner loop of the projection rewrite in `Matcher::new` (lines 354-371):
for one table, push every pk alias `__corro_pk_{alias_or_name}_{pk}` into
the `pks` map (keyed by the schema table's `name`) and emit the
corresponding aliased `ResultColumn`. -/
def pushPkAliases (entryKey disp : String) (pkList : List String)
    (pksAcc : List (String × List String)) (colsAcc : List ResultColumn) :
    List (String × List String) × List ResultColumn :=
  match pkList with
  | [] => (pksAcc, colsAcc)
  | pk :: rest =>
      let al := "__corro_pk_" ++ disp ++ "_" ++ pk
      pushPkAliases entryKey disp rest (pksAppend pksAcc entryKey al)
        (colsAcc ++ [ResultColumn.expr (.qualified disp pk) (some (.asAlias al))])

/-- The `filter_map` over `parsed.table_columns` building the synthetic PK
projection columns and the `pks` map (pubsub.rs lines 342-375).  Tables
missing from the schema are silently skipped by the `filter_map`. -/
def buildPkCols (schema : NormalizedSchema) (aliases : List (String × String))
    (tcs : List (String × List String)) (pksAcc : List (String × List String))
    (colsAcc : List ResultColumn) : List (String × List String) × List ResultColumn :=
  match tcs with
  | [] => (pksAcc, colsAcc)
  | (tblName, _) :: rest =>
      match slookup schema.tables tblName with
      | none => buildPkCols schema aliases rest pksAcc colsAcc
      | some table =>
          let disp := (reverseAliasLookup aliases tblName).getD tblName
          let acc2 := pushPkAliases table.name disp table.pk pksAcc colsAcc
          buildPkCols schema aliases rest acc2.1 acc2.2

/-- The projection replacement `*columns = new_cols` (lines 338-383); the
source's two `unreachable!()` arms are modelled as panics. -/
def setColumns (s : Stmt) (cols : List ResultColumn) : Outcome Stmt :=
  match s with
  | .select (.mk (.mk (.select _ fr wc))) => .ok (.select (.mk (.mk (.select cols fr wc))))
  | .select (.mk (.mk .values)) => .panic "internal error: entered unreachable code"
  | .unsupported => .panic "internal error: entered unreachable code"

/-- The WHERE-clause rewrite of `Matcher::new` (lines 399-411): the PK
filter is ANDed in front of any previous condition; the non-select arms are
no-ops (`_ => {}` in the source). -/
def applyPkExpr (s : Stmt) (e : Expr) : Stmt :=
  match s with
  | .select (.mk (.mk (.select cols fr wc))) =>
      .select (.mk (.mk (.select cols fr
        (some (match wc with
               | some prev => Expr.binary e .and prev
               | none => e)))))
  | other => other

/-- `parser.next()?.ok_or(StatementRequired)?` and the statement match of
`Matcher::new` (lines 313-325), followed by `extract_select_columns`. -/
def analyze_cmd (fuel : Nat) (parseResult : Except String (Option Cmd))
    (schema : NormalizedSchema) : Outcome (Stmt × ParsedSelect) :=
  match parseResult with
  | .error e => .err (.lexer e)
  | .ok none => .err .statementRequired
  | .ok (some c) =>
      match c with
      | .explainLike => .err .statementRequired
      | .stmt s =>
          match s with
          | .select sel =>
              (extract_select_columns fuel sel schema).bind fun parsed =>
                .ok (Stmt.select sel, parsed)
          | .unsupported => .err .unsupportedStatement

/-- The per-table statement loop of `Matcher::new` (lines 387-439): build
the PK filter, AND it into the WHERE clause of (a clone of) the rewritten
statement, serialize and pop the trailing character, and build the
`temp_query` over the shadow table.  The `.expect` on a missing schema table
is a panic. -/
def buildStatements (ser : Cmd → String) (schema : NormalizedSchema)
    (aliases : List (String × String)) (pksMap : List (String × List String))
    (query_table : String) (nCols : Nat) (stmt : Stmt)
    (tcs : List (String × List String)) : Outcome (List (String × MatcherStmt)) :=
  match tcs with
  | [] => .ok []
  | (tblName, _) :: rest =>
      match slookup schema.tables tblName with
      | none => .panic "this should not happen, missing table in schema"
      | some tbl =>
          (Outcome.ofExcept (table_to_expr aliases tbl tblName)).bind fun e =>
          let stmt' := applyPkExpr stmt e
          let new_query := strPop (ser (.stmt stmt'))
          let tmp_cols := ((pksMap.map Prod.snd).flatten) ++ colRange nCols
          match slookup pksMap tblName with
          | none => .err .missingPrimaryKeys
          | some ks =>
              let temp_query :=
                "SELECT " ++ String.intercalate "," tmp_cols ++ " FROM " ++ query_table
                  ++ " WHERE "
                  ++ String.intercalate " AND " (ks.map (fun k => k ++ " IS ?"))
              (buildStatements ser schema aliases pksMap query_table nCols stmt rest).bind
                fun restStmts => .ok ((tblName, ⟨new_query, temp_query⟩) :: restStmts)

/-- The shadow-table DDL built in `Matcher::new` (lines 469-484). -/
def createTempTableDdl (qualified_table_name : String) (tmp_cols : List String)
    (idHex : String) (query_table : String) (pkAliases : List String) : String :=
  "CREATE TABLE " ++ qualified_table_name
    ++ " (__corro_rowid INTEGER PRIMARY KEY AUTOINCREMENT, "
    ++ String.intercalate "," tmp_cols ++ ");\n            CREATE UNIQUE INDEX watches.index_"
    ++ idHex ++ "_pk ON " ++ query_table ++ " ("
    ++ String.intercalate "," pkAliases ++ ");"

/-- External effects consumed by `Matcher::new` in program order: the result
of `conn.prepare(sql)` (column names on success), the result of the external
parser, and the result of `conn.execute_batch` of the shadow DDL. -/
structure MatcherNewEnv where
  prep : Except String (List String)
  parseResult : Except String (Option Cmd)
  ddlExec : Except String Unit

/-- The immutable matcher descriptor built by `Matcher::new`
(`InnerMatcher`, pubsub.rs lines 280-293; channels and the cancellation
token are process-level handles with no data content to model). -/
structure MatcherRecord where
  statements : List (String × MatcherStmt)
  pks : List (String × List String)
  parsed : ParsedSelect
  query : Stmt
  query_table : String
  qualified_table_name : String
  col_names : List String
  create_temp_table : String

/-- `Matcher::new` (pubsub.rs lines 296-606) up to spawning the snapshot
task: prepare (collecting column names), parse, analyze, rewrite the
projection, build the per-table statements, build and execute the shadow
DDL.  `ser` is the `Display` implementation of the external parser crate;
`idHex` is `id.as_simple()`. -/
def Matcher.new (fuel : Nat) (env : MatcherNewEnv) (schema : NormalizedSchema)
    (ser : Cmd → String) (idHex : String) : Outcome MatcherRecord :=
  match env.prep with
  | .error e => .err (.sqlite e)
  | .ok col_names =>
      (analyze_cmd fuel env.parseResult schema).bind fun sp =>
      if sp.2.table_columns.isEmpty then .err .tableRequired
      else
        let pc := buildPkCols schema sp.2.aliases sp.2.table_columns [] []
        (setColumns sp.1 (pc.2 ++ sp.2.columns)).bind fun stmt' =>
        let query_table := "query_" ++ idHex
        (buildStatements ser schema sp.2.aliases pc.1 query_table sp.2.columns.length
            stmt' sp.2.table_columns).bind fun stmts =>
        let pkAliases := (pc.1.map Prod.snd).flatten
        let tmp_cols := pkAliases ++ colRange sp.2.columns.length
        let qualified := "watches." ++ query_table
        match env.ddlExec with
        | .error e => .err (.sqlite e)
        | .ok _ =>
            .ok { statements := stmts
                  pks := pc.1
                  parsed := sp.2
                  query := stmt'
                  query_table := query_table
                  qualified_table_name := qualified
                  col_names := col_names
                  create_temp_table :=
                    createTempTableDdl qualified tmp_cols idHex query_table pkAliases }

/-- `Matcher::process_change` (pubsub.rs lines 616-633).  The function
touches no database connection; its only effects are the lookup in the
immutable `statements` map and a `try_send` on the bounded command channel,
whose closed-or-full state is the boolean parameter.  Returns the Rust
result together with the command enqueued (if any). -/
def process_change (statements : List (String × MatcherStmt))
    (queueClosedOrFull : Bool) (agg : AggregateChange) :
    Except MatcherError Unit × Option MatcherCmd :=
  match slookup statements agg.table with
  | none => (.ok (), none)
  | some stmt =>
      if queueClosedOrFull then (.error .changeQueueClosedOrFull, none)
      else (.ok (), some (.processChange stmt (agg.pk.map Prod.snd)))

/-- One row produced by a `RETURNING` cursor: the result of `row.get(0)`
(the rowid) and of collecting the remaining cells.  Either read can fail
with an engine error. -/
structure RawRow where
  rowid : Except String Int
  cells : Except String (List SqliteValue)

/-- The behaviour of one probe's row cursor: the rows for which `next()`
returned `Ok(Some(..))`, followed by either a normal end (`Ok(None)`,
`stepErr = false`) or a step failure (`Err(_)`, `stepErr = true`). -/
structure ProbeRows where
  rows : List RawRow
  stepErr : Bool

/-- External effects consumed by `Matcher::handle_change` in program order:
transaction begin, the two `prepare_cached` calls, the index (if any) at
which `raw_bind_parameter` fails for each probe, the two row cursors, the
success of each `change_tx.send` in emission order (entries beyond the list
default to success), and the `commit` result. -/
structure ChangeEngine where
  beginTx : Except String Unit
  prepareInsert : Except String Unit
  bindInsertFailAt : Option Nat
  prepareDelete : Except String Unit
  bindDeleteFailAt : Option Nat
  insertRows : ProbeRows
  deleteRows : ProbeRows
  sends : List Bool
  commit : Except String Unit

/-- How the row loop of one probe ended: normally, with a propagated error
(`row.get(0)` failure via `?`, or a failed `change_tx.send` which returns
`ChangeReceiverClosed`), or with the cells-deserialization failure that the
source answers with `return Ok(())`. -/
inductive ProbeStatus where
  | done
  | fatal (e : MatcherError)
  | softOk

/-- The `while let Ok(Some(row)) = rows.next()` loop of `handle_change`
(lines 753-775) for one probe.  A step failure (`rows.next()` returning
`Err`) simply ends the iteration, exactly like `Ok(None)` — the `while let`
pattern swallows it. -/
def runProbeRows (ct : ChangeType) (rows : List RawRow) (sends : List Bool) :
    List RowResult × List Bool × ProbeStatus :=
  match rows with
  | [] => ([], sends, .done)
  | r :: rest =>
      match r.rowid with
      | .error e => ([], sends, .fatal (.sqlite e))
      | .ok rowid =>
          match r.cells with
          | .error _ => ([], sends, .softOk)
          | .ok cells =>
              let msg := RowResult.row rowid ct cells
              if sends.headD true then
                let out := runProbeRows ct rest sends.tail
                (msg :: out.1, out.2.1, out.2.2)
              else ([msg], sends.tail, .fatal .changeReceiverClosed)

/-- The double bind loop `for _ in 0..2 { for pk in pks { raw_bind_parameter } }`
(lines 697-703 and 736-743): returns the successfully bound values and the
loop's result; `failAt` is the zero-based index of the first failing call. -/
def bindTwice (pks : List SqliteValue) (failAt : Option Nat) :
    List SqliteValue × Except String Unit :=
  let allBinds := pks ++ pks
  match failAt with
  | none => (allBinds, .ok ())
  | some k =>
      if k < allBinds.length then (allBinds.take k, .error "bind failed")
      else (allBinds, .ok ())

/-- The SQL text of the upsert probe (lines 661-689), built from the
matcher's synthetic PK aliases and projection arity.  Interior whitespace of
the Rust multi-line format literal is normalised to single newlines. -/
def insertProbeSql (qualified_table_name : String) (tmp_cols : List String)
    (stmt : MatcherStmt) (pkAliases : List String) (nCols : Nat) : String :=
  "INSERT INTO " ++ qualified_table_name ++ " (" ++ String.intercalate "," tmp_cols
    ++ ")\nSELECT * FROM (\n" ++ stmt.new_query ++ "\nEXCEPT\n" ++ stmt.temp_query
    ++ "\n) WHERE 1\nON CONFLICT(" ++ String.intercalate "," pkAliases
    ++ ")\nDO UPDATE SET\n"
    ++ String.intercalate ","
        ((List.range nCols).map (fun i =>
          "col_" ++ toString i ++ " = excluded.col_" ++ toString i))
    ++ "\nRETURNING __corro_rowid," ++ String.intercalate "," (colRange nCols)

/-- The SQL text of the delete probe (lines 705-731). -/
def deleteProbeSql (qualified_table_name : String) (stmt : MatcherStmt)
    (pkAliases : List String) (nCols : Nat) : String :=
  "DELETE FROM " ++ qualified_table_name ++ " WHERE ("
    ++ String.intercalate "," pkAliases ++ ") in (SELECT "
    ++ String.intercalate "," pkAliases ++ " FROM (\n" ++ stmt.temp_query
    ++ "\nEXCEPT\n" ++ stmt.new_query ++ "\n)) RETURNING __corro_rowid,"
    ++ String.intercalate "," (colRange nCols)

/-- Observable outcome of one `handle_change` call: the rows the source
attempted to send on `change_tx` in order, whether `tx.commit()` ran and
succeeded, the returned `Result`, the values actually bound into each
probe, the probe SQL, and whether the cells-deserialization error branch
(`error!` + `return Ok(())`) was taken. -/
structure ChangeOutcome where
  emitted : List RowResult
  committed : Bool
  result : Except MatcherError Unit
  insertBinds : List SqliteValue
  deleteBinds : List SqliteValue
  insertSql : String
  deleteSql : String
  cellErrorLogged : Bool

/-- `Matcher::handle_change` (pubsub.rs lines 639-781).  Program order:
open the transaction, prepare + bind the upsert probe, prepare + bind the
delete probe, run the upsert row loop (emitting `Upsert` rows), run the
delete row loop (emitting `Delete` rows), commit.  Any `?`-propagated
failure or early `return` leaves the transaction uncommitted. -/
def handle_change (pksMap : List (String × List String)) (nCols : Nat)
    (qualified_table_name : String) (stmt : MatcherStmt) (pks : List SqliteValue)
    (eng : ChangeEngine) : ChangeOutcome :=
  let pkAliases := (pksMap.map Prod.snd).flatten
  let tmp_cols := pkAliases ++ colRange nCols
  let insSql := insertProbeSql qualified_table_name tmp_cols stmt pkAliases nCols
  let delSql := deleteProbeSql qualified_table_name stmt pkAliases nCols
  match eng.beginTx with
  | .error e => ⟨[], false, .error (.sqlite e), [], [], insSql, delSql, false⟩
  | .ok _ =>
  match eng.prepareInsert with
  | .error e => ⟨[], false, .error (.sqlite e), [], [], insSql, delSql, false⟩
  | .ok _ =>
  let ib := bindTwice pks eng.bindInsertFailAt
  match ib.2 with
  | .error e => ⟨[], false, .error (.sqlite e), ib.1, [], insSql, delSql, false⟩
  | .ok _ =>
  match eng.prepareDelete with
  | .error e => ⟨[], false, .error (.sqlite e), ib.1, [], insSql, delSql, false⟩
  | .ok _ =>
  let db := bindTwice pks eng.bindDeleteFailAt
  match db.2 with
  | .error e => ⟨[], false, .error (.sqlite e), ib.1, db.1, insSql, delSql, false⟩
  | .ok _ =>
  let ins := runProbeRows .upsert eng.insertRows.rows eng.sends
  match ins.2.2 with
  | .fatal e => ⟨ins.1, false, .error e, ib.1, db.1, insSql, delSql, false⟩
  | .softOk => ⟨ins.1, false, .ok (), ib.1, db.1, insSql, delSql, true⟩
  | .done =>
  let del := runProbeRows .delete eng.deleteRows.rows ins.2.1
  match del.2.2 with
  | .fatal e => ⟨ins.1 ++ del.1, false, .error e, ib.1, db.1, insSql, delSql, false⟩
  | .softOk => ⟨ins.1 ++ del.1, false, .ok (), ib.1, db.1, insSql, delSql, true⟩
  | .done =>
  match eng.commit with
  | .error e => ⟨ins.1 ++ del.1, false, .error (.sqlite e), ib.1, db.1, insSql, delSql, false⟩
  | .ok _ => ⟨ins.1 ++ del.1, true, .ok (), ib.1, db.1, insSql, delSql, false⟩

/-- The event loop's reaction to a `handle_change` result (lines 571-581):
only `ChangeReceiverClosed` breaks the loop, every other error is logged
and the matcher continues processing subsequent commands. -/
def continuesAfterChange : Except MatcherError Unit → Bool
  | .error .changeReceiverClosed => false
  | _ => true

def exOk {ε α : Type} : Except ε α → Bool
  | .ok _ => true
  | .error _ => false

def RawRow.okRow : RawRow → Bool
  | ⟨.ok _, .ok _⟩ => true
  | _ => false

/-- The row message a probe emits for a fully-readable row. -/
def okRowAs (ct : ChangeType) (r : RawRow) : RowResult :=
  .row (r.rowid.toOption.getD 0) ct (r.cells.toOption.getD [])

/-- No external call fails during `handle_change` (the step terminators of
both cursors included). -/
def ChangeEngine.noFailure (eng : ChangeEngine) : Bool :=
  exOk eng.beginTx && exOk eng.prepareInsert && eng.bindInsertFailAt.isNone
    && exOk eng.prepareDelete && eng.bindDeleteFailAt.isNone
    && eng.insertRows.rows.all RawRow.okRow && !eng.insertRows.stepErr
    && eng.deleteRows.rows.all RawRow.okRow && !eng.deleteRows.stepErr
    && eng.sends.all (fun b => b) && exOk eng.commit

/-- Like `noFailure` but the step terminators of the two cursors may fail
(the only failure the `while let` loop swallows). -/
def ChangeEngine.noFailureExceptStep (eng : ChangeEngine) : Bool :=
  exOk eng.beginTx && exOk eng.prepareInsert && eng.bindInsertFailAt.isNone
    && exOk eng.prepareDelete && eng.bindDeleteFailAt.isNone
    && eng.insertRows.rows.all RawRow.okRow
    && eng.deleteRows.rows.all RawRow.okRow
    && eng.sends.all (fun b => b) && exOk eng.commit

/-- External effects consumed by the snapshot phase of the spawned task
(pubsub.rs lines 488-562) in program order: success of the `Columns` send,
transaction begin, `prepare` of the `INSERT .. RETURNING`, the initial
`query(())` call, the row cursor (with `stepErr` the optional `Err` message
of the terminating `next()` call — here it propagates via `return Err`),
the success of each row `blocking_send`, and the commit result. -/
structure SnapshotEngine where
  columnsSendOk : Bool
  beginTx : Except String Unit
  prepare : Except String Unit
  queryStart : Except String Unit
  rows : List RawRow
  stepErr : Option String
  rowSends : List Bool
  commit : Except String Unit

/-- The row loop of the snapshot closure (lines 521-547): `row.get(0)` and
the cells collection propagate via `?`, a failed `blocking_send` returns
`ChangeReceiverClosed`, the terminating `Err(e)` arm returns the error. -/
def snapshotRows (rows : List RawRow) (stepErr : Option String) (sends : List Bool) :
    List RowResult × Except MatcherError Unit :=
  match rows with
  | [] =>
      ([], match stepErr with
           | some e => .error (.sqlite e)
           | none => .ok ())
  | r :: rest =>
      match r.rowid with
      | .error e => ([], .error (.sqlite e))
      | .ok rowid =>
          match r.cells with
          | .error e => ([], .error (.sqlite e))
          | .ok cells =>
              let msg := RowResult.row rowid .upsert cells
              if sends.headD true then
                let out := snapshotRows rest stepErr sends.tail
                (msg :: out.1, out.2)
              else ([msg], .error .changeReceiverClosed)

/-- The `block_in_place` closure of the snapshot phase (lines 502-552):
transaction, prepare, query, row loop, commit.  Returns the row messages
attempted and the closure's result. -/
def snapshotRes (eng : SnapshotEngine) : List RowResult × Except MatcherError Unit :=
  match eng.beginTx with
  | .error e => ([], .error (.sqlite e))
  | .ok _ =>
  match eng.prepare with
  | .error e => ([], .error (.sqlite e))
  | .ok _ =>
  match eng.queryStart with
  | .error e => ([], .error (.sqlite e))
  | .ok _ =>
  let out := snapshotRows eng.rows eng.stepErr eng.rowSends
  match out.2 with
  | .error e => (out.1, .error e)
  | .ok _ =>
      match eng.commit with
      | .error e => (out.1, .error (.sqlite e))
      | .ok _ => (out.1, .ok ())

/-- The snapshot phase of the spawned task (lines 492-562), as the sequence
of messages it attempts to send on the init channel: `Columns` first (if
that send fails the task returns immediately), then the probe rows, then
`EndOfQuery` on success of the closure or `Error(msg)` on its failure. -/
def snapshotTask (col_names : List String) (eng : SnapshotEngine) : List RowResult :=
  if eng.columnsSendOk then
    let out := snapshotRes eng
    match out.2 with
    | .error e => RowResult.columns col_names :: out.1 ++ [RowResult.error e.message]
    | .ok _ => RowResult.columns col_names :: out.1 ++ [RowResult.endOfQuery]
  else [RowResult.columns col_names]

/-- The snapshot closure fails before `EndOfQuery` would be sent. -/
def snapshotFailed (eng : SnapshotEngine) : Bool :=
  match (snapshotRes eng).2 with
  | .error _ => true
  | .ok _ => false

/-- No external call of the snapshot phase fails. -/
def SnapshotEngine.noFailure (eng : SnapshotEngine) : Bool :=
  eng.columnsSendOk && exOk eng.beginTx && exOk eng.prepare && exOk eng.queryStart
    && eng.rows.all RawRow.okRow && eng.stepErr.isNone
    && eng.rowSends.all (fun b => b) && exOk eng.commit

/-- A command delivered to the matcher's event loop: a `ProcessChange`
(abstracted by the result of the corresponding `handle_change` call) or an
`Unsubscribe` observed while `change_tx` has the given receiver count. -/
inductive LoopCmd where
  | processChange (res : Except MatcherError Unit)
  | unsubscribe (receiverCount : Nat)

/-- One wake-up of the event loop's `select!`: either a command arrives on
the inbox or the cancellation token fires. -/
inductive LoopEvent where
  | cmd (c : LoopCmd)
  | cancelTripped

/-- Observable outcome of running the event loop over a finite event
prefix: whether the loop exited, whether it exited via `break` (the only
paths that fall through to the `DROP TABLE` cleanup) rather than `return`,
whether the `DROP TABLE` ran, and whether its failure was logged at warn
level. -/
structure LoopOutcome where
  ended : Bool
  viaBreak : Bool
  dropAttempted : Bool
  dropWarned : Bool
deriving DecidableEq

/-- The fall-through cleanup after the loop (lines 594-601): best-effort
`DROP TABLE`, logging a warning on failure and never propagating it. -/
def finishDrop (dropResult : Except String Unit) : LoopOutcome :=
  ⟨true, true, true,
   match dropResult with
   | .error _ => true
   | .ok _ => false⟩

/-- The matcher's event loop (pubsub.rs lines 564-601).  `cancel.cancelled()`
hits the `return` arm of the `select!`, which exits the whole task WITHOUT
reaching the `DROP TABLE` statement below the loop; only the two `break`
paths (a `ChangeReceiverClosed` from `handle_change`, or `Unsubscribe` with
zero receivers) fall through to the cleanup. -/
def runLoop (events : List LoopEvent) (dropResult : Except String Unit) : LoopOutcome :=
  match events with
  | [] => ⟨false, false, false, false⟩
  | .cancelTripped :: _ => ⟨true, false, false, false⟩
  | .cmd c :: rest =>
      match c with
      | .processChange res =>
          if continuesAfterChange res then runLoop rest dropResult
          else finishDrop dropResult
      | .unsubscribe n =>
          if n = 0 then finishDrop dropResult else runLoop rest dropResult

/-! Concrete instances used by witnesses and counterexamples. -/

/-- A schema with a single table `foo(a)`, primary key `a`. -/
def schemaFoo : NormalizedSchema := ⟨[("foo", ⟨"foo", ["a"], ["a"]⟩)]⟩

/-- A schema with a single table `t(x)` that declares NO primary key. -/
def schemaNoPk : NormalizedSchema := ⟨[("t", ⟨"t", ["x"], []⟩)]⟩

/-- `SELECT 1 FROM foo WHERE x` — the `WHERE` clause is a bare `Name`. -/
def selBareName : Select :=
  .mk (.mk (.select [.expr (.literal "1") none]
    (some (.mk (some (.table ⟨"foo", none⟩ none)) none))
    (some (.name "x"))))

/-- `SELECT foo.a FROM foo JOIN bar USING (x)` — `bar` does not exist in
`schemaFoo`. -/
def selJoinBar : Select :=
  .mk (.mk (.select [.expr (.qualified "foo" "a") none]
    (some (.mk (some (.table ⟨"foo", none⟩ none))
      (some [.mk (.table ⟨"bar", none⟩ none) (some (.usingCols ["x"]))])))
    none))

/-- `SELECT c.x FROM t AS c` over `schemaNoPk`. -/
def selAliasNoPk : Select :=
  .mk (.mk (.select [.expr (.qualified "c" "x") none]
    (some (.mk (some (.table ⟨"t", none⟩ (some (.asAlias "c")))) none))
    none))

/-- `SELECT foo.a FROM foo` over `schemaFoo` (fully well-formed). -/
def selFooA : Select :=
  .mk (.mk (.select [.expr (.qualified "foo" "a") none]
    (some (.mk (some (.table ⟨"foo", none⟩ none)) none))
    none))

/-- A stand-in for the external serializer: every statement renders as a
fixed SQL text ending in the `;` that `Cmd`'s `Display` always appends. -/
def serSemi : Cmd → String := fun _ => "SELECT 1;"

def envJoinBar : MatcherNewEnv :=
  ⟨.ok ["c0"], .ok (some (.stmt (.select selJoinBar))), .ok ()⟩

def envAliasNoPk : MatcherNewEnv :=
  ⟨.ok ["c0"], .ok (some (.stmt (.select selAliasNoPk))), .ok ()⟩

def envFooA : MatcherNewEnv :=
  ⟨.ok ["n1", "n2"], .ok (some (.stmt (.select selFooA))), .ok ()⟩

def fallbackRecord : MatcherRecord :=
  ⟨[], [], ParsedSelect.default, .unsupported, "", "", [], ""⟩

/-- The record built by `Matcher::new` for `selFooA` (used concretely by
witnesses). -/
def recFooA : MatcherRecord :=
  match Matcher.new 10 envFooA schemaFoo serSemi "ab" with
  | .ok r => r
  | _ => fallbackRecord

/-- The `MatcherStmt` registered for table `foo` in `recFooA`. -/
def msFooA : MatcherStmt := (slookup recFooA.statements "foo").getD ⟨"", ""⟩

def rawRow1 : RawRow := ⟨.ok 1, .ok [.integer 5]⟩

def rawRow2 : RawRow := ⟨.ok 2, .ok [.text "b"]⟩

/-- A failure-free change engine: one upsert row, one delete row. -/
def engChangeOk : ChangeEngine :=
  ⟨.ok (), .ok (), none, .ok (), none, ⟨[rawRow1], false⟩, ⟨[rawRow2], false⟩, [], .ok ()⟩

/-- A change engine whose upsert probe fails at its very first `next()`
step (the `while let` swallows it). -/
def engChangeStepErr : ChangeEngine :=
  ⟨.ok (), .ok (), none, .ok (), none, ⟨[], true⟩, ⟨[], false⟩, [], .ok ()⟩

/-- A change engine whose single upsert row fails cell deserialization. -/
def engChangeBadCell : ChangeEngine :=
  ⟨.ok (), .ok (), none, .ok (), none, ⟨[⟨.ok 1, .error "bad cell"⟩], false⟩,
   ⟨[], false⟩, [], .ok ()⟩

def pksMapFoo : List (String × List String) := [("foo", ["__corro_pk_foo_a"])]

def stmtFoo : MatcherStmt := ⟨"SELECT a", "SELECT b"⟩

/-- A failure-free snapshot engine with one row. -/
def engSnapOk : SnapshotEngine :=
  ⟨true, .ok (), .ok (), .ok (), [rawRow1], none, [], .ok ()⟩

/-- A snapshot engine whose cursor ends with a step error (which the
snapshot loop, unlike `handle_change`, propagates). -/
def engSnapStepErr : SnapshotEngine :=
  ⟨true, .ok (), .ok (), .ok (), [rawRow1], some "boom", [], .ok ()⟩

def aggFoo : AggregateChange := ⟨"foo", [("a", .text "k1")]⟩

def aggOther : AggregateChange := ⟨"zzz", [("a", .text "k1")]⟩

/-- The analysis result for `selAliasNoPk` over `schemaNoPk`. -/
def parsedAliasNoPk : ParsedSelect :=
  .mk [("t", ["x"])] [("c", "t")]
    [.expr (.qualified "c" "x") (some (.asAlias "col_0"))] []

/-! Helper lemmas. -/

theorem Outcome.bind_eq_ok {α β : Type} {a : Outcome α} {f : α → Outcome β} {b : β}
    (h : a.bind f = .ok b) : ∃ x, a = .ok x ∧ f x = .ok b := by
  cases a with
  | ok x => exact ⟨x, rfl, h⟩
  | err e => simp [Outcome.bind] at h
  | panic m => simp [Outcome.bind] at h
  | outOfFuel => simp [Outcome.bind] at h

theorem strPop_concat (s : String) : strPop (s ++ ";") = s := by
  obtain ⟨l⟩ := s
  show String.mk ((String.mk l ++ ";").data.dropLast) = String.mk l
  have hdata : (String.mk l ++ ";").data = l ++ [';'] := rfl
  rw [hdata, List.dropLast_concat]

theorem runProbeRows_ok (ct : ChangeType) (rows : List RawRow) (sends : List Bool)
    (hr : rows.all RawRow.okRow = true) (hs : sends.all (fun b => b) = true) :
    runProbeRows ct rows sends = (rows.map (okRowAs ct), sends.drop rows.length, .done) := by
  induction rows generalizing sends with
  | nil => simp [runProbeRows]
  | cons r rest ih =>
    rw [List.all_cons, Bool.and_eq_true] at hr
    obtain ⟨hr1, hr2⟩ := hr
    obtain ⟨ri, rc⟩ := r
    cases ri with
    | error e => simp [RawRow.okRow] at hr1
    | ok rowid =>
      cases rc with
      | error e => simp [RawRow.okRow] at hr1
      | ok cells =>
        cases sends with
        | nil =>
            simp [runProbeRows, ih [] hr2 (by simp), okRowAs, Except.toOption]
        | cons b bs =>
            rw [List.all_cons, Bool.and_eq_true] at hs
            obtain ⟨hb, hbs⟩ := hs
            have hb2 : b = true := hb
            subst hb2
            simp [runProbeRows, ih bs hr2 hbs, okRowAs, Except.toOption]

theorem snapshotRows_ok (rows : List RawRow) (sends : List Bool)
    (hr : rows.all RawRow.okRow = true) (hs : sends.all (fun b => b) = true) :
    snapshotRows rows none sends = (rows.map (okRowAs .upsert), .ok ()) := by
  induction rows generalizing sends with
  | nil => simp [snapshotRows]
  | cons r rest ih =>
    rw [List.all_cons, Bool.and_eq_true] at hr
    obtain ⟨hr1, hr2⟩ := hr
    obtain ⟨ri, rc⟩ := r
    cases ri with
    | error e => simp [RawRow.okRow] at hr1
    | ok rowid =>
      cases rc with
      | error e => simp [RawRow.okRow] at hr1
      | ok cells =>
        cases sends with
        | nil =>
            simp [snapshotRows, ih [] hr2 (by simp), okRowAs, Except.toOption]
        | cons b bs =>
            rw [List.all_cons, Bool.and_eq_true] at hs
            obtain ⟨hb, hbs⟩ := hs
            have hb2 : b = true := hb
            subst hb2
            simp [snapshotRows, ih bs hr2 hbs, okRowAs, Except.toOption]

theorem snapshotRows_shape (rows : List RawRow) (se : Option String) (sends : List Bool) :
    ∀ x ∈ (snapshotRows rows se sends).1, ∃ i cs, x = RowResult.row i .upsert cs := by
  induction rows generalizing sends with
  | nil => simp [snapshotRows]
  | cons r rest ih =>
    obtain ⟨ri, rc⟩ := r
    cases ri with
    | error e => simp [snapshotRows]
    | ok rowid =>
      cases rc with
      | error e => simp [snapshotRows]
      | ok cells =>
        intro x hx
        simp only [snapshotRows] at hx
        by_cases hb : sends.headD true = true
        · rw [if_pos hb] at hx
          rcases List.mem_cons.mp hx with h | h
          · exact ⟨rowid, cells, h⟩
          · exact ih sends.tail x h
        · rw [if_neg hb] at hx
          rcases List.mem_cons.mp hx with h | h
          · exact ⟨rowid, cells, h⟩
          · simp at h

theorem snapshotRes_shape (eng : SnapshotEngine) :
    ∀ x ∈ (snapshotRes eng).1, ∃ i cs, x = RowResult.row i .upsert cs := by
  obtain ⟨csend, bt, pp, qs, rows, se, sends, cm⟩ := eng
  intro x hx
  simp only [snapshotRes] at hx
  cases bt with
  | error e => simp at hx
  | ok u =>
    cases pp with
    | error e => simp at hx
    | ok u2 =>
      cases qs with
      | error e => simp at hx
      | ok u3 =>
        simp only at hx
        rcases hrows : (snapshotRows rows se sends).2 with e | u4 <;>
          rw [hrows] at hx <;>
          simp only at hx
        · exact snapshotRows_shape rows se sends x hx
        · cases cm with
          | error e => simp only at hx; exact snapshotRows_shape _ _ _ x hx
          | ok u5 => simp only at hx; exact snapshotRows_shape _ _ _ x hx

theorem pk_fold_spec (tn first : String) (e : Expr) (rest : List String) :
    pk_fold tn first e rest
      = .ok (rest.foldl
          (fun acc pk => .binary acc .and (.binary (.qualified tn pk) .is (.id "?"))) e) := by
  induction rest generalizing e with
  | nil => rfl
  | cons pk rest ih => simp [pk_fold, expr_from_pk, ih]

theorem table_to_expr_spec (aliases : List (String × String)) (tbl : NormalizedTable)
    (t : String) (p : String) (ps : List String) (hpk : tbl.pk = p :: ps) :
    table_to_expr aliases tbl t
      = .ok (specPkFilter ((reverseAliasLookup aliases t).getD t) p ps) := by
  simp [table_to_expr, hpk, expr_from_pk, pk_fold_spec, specPkFilter]

theorem table_to_expr_no_pk (aliases : List (String × String)) (tbl : NormalizedTable)
    (t : String) (hpk : tbl.pk = []) :
    table_to_expr aliases tbl t
      = .error (.noPrimaryKey ((reverseAliasLookup aliases t).getD t)) := by
  simp [table_to_expr, hpk]

theorem analyze_cmd_ok_inv {fuel : Nat} {pr : Except String (Option Cmd)}
    {schema : NormalizedSchema} {sp : Stmt × ParsedSelect}
    (h : analyze_cmd fuel pr schema = .ok sp) :
    ∃ sel, sp.1 = .select sel ∧ extract_select_columns fuel sel schema = .ok sp.2 := by
  cases pr with
  | error e => simp [analyze_cmd] at h
  | ok oc =>
    cases oc with
    | none => simp [analyze_cmd] at h
    | some c =>
      cases c with
      | explainLike => simp [analyze_cmd] at h
      | stmt s =>
        cases s with
        | unsupported => simp [analyze_cmd] at h
        | select sel =>
          simp only [analyze_cmd] at h
          obtain ⟨p, hp, hpf⟩ := Outcome.bind_eq_ok h
          have hsp : sp = (Stmt.select sel, p) := by
            cases hpf' : hpf
            rfl
          subst hsp
          exact ⟨sel, rfl, hp⟩

theorem buildStatements_mem {ser : Cmd → String} {schema : NormalizedSchema}
    {aliases : List (String × String)} {pksMap : List (String × List String)}
    {qt : String} {nCols : Nat} {stmt : Stmt} {tcs : List (String × List String)}
    {l : List (String × MatcherStmt)}
    (h : buildStatements ser schema aliases pksMap qt nCols stmt tcs = .ok l)
    {t : String} {ms : MatcherStmt} (hm : (t, ms) ∈ l) :
    ∃ tbl e, slookup schema.tables t = some tbl
      ∧ table_to_expr aliases tbl t = .ok e
      ∧ ms.new_query = strPop (ser (.stmt (applyPkExpr stmt e))) := by
  induction tcs generalizing l with
  | nil =>
      simp only [buildStatements] at h
      cases h
      simp at hm
  | cons hd rest ih =>
      obtain ⟨tn, cs⟩ := hd
      simp only [buildStatements] at h
      cases hs : slookup schema.tables tn with
      | none => rw [hs] at h; simp at h
      | some tbl =>
        rw [hs] at h
        simp only at h
        cases he : table_to_expr aliases tbl tn with
        | error e0 => rw [he] at h; simp [Outcome.ofExcept, Outcome.bind] at h
        | ok e0 =>
          rw [he] at h
          simp only [Outcome.ofExcept, Outcome.bind] at h
          cases hk : slookup pksMap tn with
          | none => rw [hk] at h; simp at h
          | some ks =>
            rw [hk] at h
            simp only at h
            obtain ⟨restL, hrest, hcons⟩ := Outcome.bind_eq_ok h
            have hl : (tn,
                (⟨strPop (ser (.stmt (applyPkExpr stmt e0))),
                  "SELECT " ++ String.intercalate "," ((pksMap.map Prod.snd).flatten ++ colRange nCols)
                    ++ " FROM " ++ qt ++ " WHERE "
                    ++ String.intercalate " AND " (ks.map (fun k => k ++ " IS ?"))⟩ :
                  MatcherStmt)) :: restL = l := by
              cases hcons
              rfl
            subst hl
            rcases List.mem_cons.mp hm with hhd | htl
            · rw [Prod.mk.injEq] at hhd
              obtain ⟨hteq, hmseq⟩ := hhd
              subst hteq
              exact ⟨tbl, e0, hs, he, by rw [hmseq]⟩
            · exact ih hrest htl

theorem matcher_new_ok_inv {fuel : Nat} {env : MatcherNewEnv} {schema : NormalizedSchema}
    {ser : Cmd → String} {idHex : String} {rec : MatcherRecord}
    (h : Matcher.new fuel env schema ser idHex = .ok rec) :
    ∃ col_names sp stmt',
      env.prep = .ok col_names
      ∧ analyze_cmd fuel env.parseResult schema = .ok sp
      ∧ sp.2.table_columns.isEmpty = false
      ∧ setColumns sp.1
          ((buildPkCols schema sp.2.aliases sp.2.table_columns [] []).2 ++ sp.2.columns)
          = .ok stmt'
      ∧ buildStatements ser schema sp.2.aliases
          (buildPkCols schema sp.2.aliases sp.2.table_columns [] []).1
          ("query_" ++ idHex) sp.2.columns.length stmt' sp.2.table_columns
          = .ok rec.statements
      ∧ rec.query = stmt' ∧ rec.parsed = sp.2 ∧ rec.col_names = col_names := by
  cases hp : env.prep with
  | error e => simp [Matcher.new, hp] at h
  | ok col_names =>
    simp only [Matcher.new, hp] at h
    obtain ⟨sp, hsp, h⟩ := Outcome.bind_eq_ok h
    refine ⟨col_names, sp, ?_⟩
    cases hempty : sp.2.table_columns.isEmpty with
    | true => rw [hempty] at h; simp at h
    | false =>
      rw [hempty] at h
      simp only [Bool.false_eq_true, if_false] at h
      obtain ⟨stmt', hset, h⟩ := Outcome.bind_eq_ok h
      obtain ⟨stmts, hbs, h⟩ := Outcome.bind_eq_ok h
      refine ⟨stmt', rfl, hsp, rfl, hset, ?_⟩
      cases hd : env.ddlExec with
      | error e => rw [hd] at h; simp at h
      | ok u =>
        rw [hd] at h
        simp only [Outcome.ok.injEq] at h
        subst h
        exact ⟨hbs, rfl, rfl, rfl⟩

theorem exOk_eq_ok {e : Except String Unit} (h : exOk e = true) : e = .ok () := by
  cases e with
  | error _ => simp [exOk] at h
  | ok u => cases u; rfl

theorem snapshotTask_head (cn : List String) (eng : SnapshotEngine) :
    (snapshotTask cn eng).head? = some (.columns cn) := by
  simp only [snapshotTask]
  split
  · split <;> simp
  · simp

theorem handle_change_clean (pksMap : List (String × List String)) (nCols : Nat)
    (qtn : String) (stmt : MatcherStmt) (pks : List SqliteValue) (eng : ChangeEngine)
    (hbt : eng.beginTx = .ok ()) (hpi : eng.prepareInsert = .ok ())
    (hbi : eng.bindInsertFailAt = none) (hpd : eng.prepareDelete = .ok ())
    (hbd : eng.bindDeleteFailAt = none)
    (hir : eng.insertRows.rows.all RawRow.okRow = true)
    (hdr : eng.deleteRows.rows.all RawRow.okRow = true)
    (hsends : eng.sends.all (fun b => b) = true)
    (hcm : eng.commit = .ok ()) :
    handle_change pksMap nCols qtn stmt pks eng =
      ⟨eng.insertRows.rows.map (okRowAs .upsert)
         ++ eng.deleteRows.rows.map (okRowAs .delete),
       true, .ok (), pks ++ pks, pks ++ pks,
       insertProbeSql qtn ((pksMap.map Prod.snd).flatten ++ colRange nCols) stmt
         ((pksMap.map Prod.snd).flatten) nCols,
       deleteProbeSql qtn stmt ((pksMap.map Prod.snd).flatten) nCols,
       false⟩ := by
  obtain ⟨bt, pi, bfi, pd, bdf, ir, dr, sends, cm⟩ := eng
  obtain ⟨irows, istep⟩ := ir
  obtain ⟨drows, dstep⟩ := dr
  simp only at hbt hpi hbi hpd hbd hir hdr hsends hcm
  subst hbt hpi hbi hpd hbd hcm
  have hsends2 : ((sends.drop irows.length).all fun b => b) = true := by
    rw [List.all_eq_true] at hsends ⊢
    intro x hx
    exact hsends x (List.drop_subset _ _ hx)
  have h1 := runProbeRows_ok .upsert irows sends hir hsends
  have h2 := runProbeRows_ok .delete drows (sends.drop irows.length) hdr hsends2
  simp only [handle_change, bindTwice, h1, h2]

theorem handle_change_failure_cases (pksMap : List (String × List String)) (nCols : Nat)
    (qtn : String) (stmt : MatcherStmt) (pks : List SqliteValue) (eng : ChangeEngine) :
    ((handle_change pksMap nCols qtn stmt pks eng).committed = true →
        (handle_change pksMap nCols qtn stmt pks eng).result = .ok ()
        ∧ (handle_change pksMap nCols qtn stmt pks eng).cellErrorLogged = false)
    ∧ (∀ e, (handle_change pksMap nCols qtn stmt pks eng).result = .error e →
        (handle_change pksMap nCols qtn stmt pks eng).committed = false)
    ∧ ((handle_change pksMap nCols qtn stmt pks eng).cellErrorLogged = true →
        (handle_change pksMap nCols qtn stmt pks eng).committed = false) := by
  obtain ⟨bt, pi, bfi, pd, bdf, ir, dr, sends, cm⟩ := eng
  obtain ⟨irows, istep⟩ := ir
  obtain ⟨drows, dstep⟩ := dr
  simp only [handle_change]
  cases bt with
  | error e0 => simp
  | ok u =>
  cases u
  cases pi with
  | error e0 => simp
  | ok u =>
  cases u
  rcases hib : (bindTwice pks bfi).2 with e0 | u
  · simp
  · cases u
    cases pd with
    | error e0 => simp
    | ok u =>
    cases u
    rcases hdb : (bindTwice pks bdf).2 with e0 | u
    · simp
    · cases u
      rcases hr1 : runProbeRows .upsert irows sends with ⟨ems1, sends1, st1⟩
      cases st1 with
      | fatal e0 => simp
      | softOk => simp
      | done =>
        rcases hr2 : runProbeRows .delete drows sends1 with ⟨ems2, sends2, st2⟩
        cases st2 with
        | fatal e0 => simp
        | softOk => simp
        | done =>
          cases cm with
          | error e0 => simp
          | ok u => cases u; simp

/-! Claim theorems. -/

/-- C1: every `Matcher::handle_change` call, when no external call fails,
runs in one transaction committed at the end (`committed = true`, result
`Ok`), binds the pk values twice into each probe (`pks ++ pks` for the
upsert probe — once for `new_query`, once for `temp_query` — and again for
the delete probe), and emits every upsert-probe row as `Upsert` followed by
every delete-probe row as `Delete`, so all `Upsert` emissions precede all
`Delete` emissions. -/
theorem c1_handle_change_transaction (pksMap : List (String × List String)) (nCols : Nat)
    (qtn : String) (stmt : MatcherStmt) (pks : List SqliteValue) (eng : ChangeEngine)
    (h : eng.noFailure = true) :
    (handle_change pksMap nCols qtn stmt pks eng).result = .ok ()
    ∧ (handle_change pksMap nCols qtn stmt pks eng).committed = true
    ∧ (handle_change pksMap nCols qtn stmt pks eng).insertBinds = pks ++ pks
    ∧ (handle_change pksMap nCols qtn stmt pks eng).deleteBinds = pks ++ pks
    ∧ (handle_change pksMap nCols qtn stmt pks eng).emitted
        = eng.insertRows.rows.map (okRowAs .upsert)
            ++ eng.deleteRows.rows.map (okRowAs .delete) := by
  simp only [ChangeEngine.noFailure, Bool.and_eq_true] at h
  obtain ⟨⟨⟨⟨⟨⟨⟨⟨⟨⟨hbt, hpi⟩, hbfi⟩, hpd⟩, hbdf⟩, hir⟩, his⟩, hdr⟩, hds⟩, hsends⟩, hcm⟩ := h
  rw [handle_change_clean pksMap nCols qtn stmt pks eng (exOk_eq_ok hbt) (exOk_eq_ok hpi)
      (Option.isNone_iff_eq_none.mp hbfi) (exOk_eq_ok hpd)
      (Option.isNone_iff_eq_none.mp hbdf) hir hdr hsends (exOk_eq_ok hcm)]
  exact ⟨rfl, rfl, rfl, rfl, rfl⟩

/-- C1 witness: a concrete failure-free engine with one upsert row and one
delete row. -/
theorem c1_handle_change_transaction_witness :
    engChangeOk.noFailure = true
    ∧ (handle_change pksMapFoo 1 "watches.query_ab" stmtFoo [.text "p"] engChangeOk).emitted
        = [.row 1 .upsert [.integer 5], .row 2 .delete [.text "b"]]
    ∧ (handle_change pksMapFoo 1 "watches.query_ab" stmtFoo [.text "p"] engChangeOk).committed
        = true
    ∧ (handle_change pksMapFoo 1 "watches.query_ab" stmtFoo [.text "p"] engChangeOk).insertBinds
        = [.text "p", .text "p"] := by
  have h := c1_handle_change_transaction pksMapFoo 1 "watches.query_ab" stmtFoo
    [.text "p"] engChangeOk rfl
  exact ⟨rfl, h.2.2.2.2.trans rfl, h.2.1, h.2.2.1.trans rfl⟩

/-- C2: in the initial snapshot the first init-channel message is
`Columns(col_names)`; when nothing fails the full message sequence is
`Columns`, one `Upsert` row per row returned by the `INSERT .. RETURNING`
statement, then `EndOfQuery`; and when the snapshot closure fails before
`EndOfQuery`, the sequence ends with `Error(msg)` instead, `EndOfQuery` is
never sent, and everything strictly between `Columns` and the `Error` is an
`Upsert` row. -/
theorem c2_snapshot_messages (col_names : List String) (eng : SnapshotEngine) :
    (snapshotTask col_names eng).head? = some (.columns col_names)
    ∧ (eng.noFailure = true →
        snapshotTask col_names eng
          = .columns col_names :: (eng.rows.map (okRowAs .upsert) ++ [.endOfQuery]))
    ∧ (eng.columnsSendOk = true → snapshotFailed eng = true →
        RowResult.endOfQuery ∉ snapshotTask col_names eng
        ∧ (∃ m, (snapshotTask col_names eng).getLast? = some (.error m))
        ∧ ∀ x ∈ (snapshotTask col_names eng).tail.dropLast,
            ∃ i cs, x = RowResult.row i .upsert cs) := by
  refine ⟨snapshotTask_head col_names eng, ?_, ?_⟩
  · intro hnf
    obtain ⟨csend, bt, pp, qs, rows, se, sends, cm⟩ := eng
    simp only [SnapshotEngine.noFailure, Bool.and_eq_true] at hnf
    obtain ⟨⟨⟨⟨⟨⟨⟨hcs, hbt⟩, hpp⟩, hqs⟩, hrows⟩, hse⟩, hsends⟩, hcm⟩ := hnf
    have hcs2 : csend = true := hcs
    have hse2 : se = none := Option.isNone_iff_eq_none.mp hse
    have hbt2 := exOk_eq_ok hbt
    have hpp2 := exOk_eq_ok hpp
    have hqs2 := exOk_eq_ok hqs
    have hcm2 := exOk_eq_ok hcm
    subst hcs2 hse2 hbt2 hpp2 hqs2 hcm2
    simp [snapshotTask, snapshotRes, snapshotRows_ok rows sends hrows hsends]
  · intro hc hf
    unfold snapshotFailed at hf
    rcases h2 : (snapshotRes eng).2 with e | u
    · have htr : snapshotTask col_names eng
          = RowResult.columns col_names :: (snapshotRes eng).1
              ++ [RowResult.error e.message] := by
        simp only [snapshotTask, hc, if_true]
        rw [h2]
      rw [htr]
      refine ⟨?_, ?_, ?_⟩
      · intro hmem
        rw [List.cons_append, List.mem_cons] at hmem
        rcases hmem with h | hmem
        · cases h
        · rw [List.mem_append] at hmem
          rcases hmem with h | h
          · obtain ⟨i, cs, hx⟩ := snapshotRes_shape eng _ h
            cases hx
          · rw [List.mem_singleton] at h
            cases h
      · exact ⟨e.message, List.getLast?_concat _⟩
      · intro x hx
        rw [List.cons_append, List.tail_cons, List.dropLast_concat] at hx
        exact snapshotRes_shape eng x hx
    · rw [h2] at hf
      simp at hf

/-- C2 witness: the failure-free one-row engine emits exactly
`Columns`, `Row(Upsert)`, `EndOfQuery`; the engine whose cursor step fails
never emits `EndOfQuery`. -/
theorem c2_snapshot_messages_witness :
    snapshotTask ["a"] engSnapOk
      = [.columns ["a"], .row 1 .upsert [.integer 5], .endOfQuery]
    ∧ RowResult.endOfQuery ∉ snapshotTask ["a"] engSnapStepErr :=
  ⟨((c2_snapshot_messages ["a"] engSnapOk).2.1 rfl).trans rfl,
   ((c2_snapshot_messages ["a"] engSnapStepErr).2.2 rfl rfl).1⟩

/-- C3 counterexample: a storage failure while stepping the upsert probe's
RETURNING rows (`rows.next()` returning `Err`) is swallowed by the
`while let Ok(Some(row))` pattern — `handle_change` still commits the
transaction and returns `Ok`, contradicting the claim that the transaction
is never committed on such a failure. -/
theorem c3_counterexample :
    engChangeStepErr.insertRows.stepErr = true
    ∧ (handle_change pksMapFoo 1 "watches.query_ab" stmtFoo [.text "p"]
        engChangeStepErr).committed = true
    ∧ (handle_change pksMapFoo 1 "watches.query_ab" stmtFoo [.text "p"]
        engChangeStepErr).result = .ok () :=
  ⟨rfl, rfl, rfl⟩

/-- C3 (amended): a storage failure while opening the transaction,
preparing or binding either probe, reading a returned row's rowid, or
committing leaves the transaction uncommitted, and so does the
cells-deserialization failure branch (which returns `Ok`); every reported
`Sqlite` error lets the matcher continue processing subsequent commands
(only `ChangeReceiverClosed` breaks the loop).  However, a failure while
STEPPING the RETURNING rows is silently swallowed: with every other call
succeeding, the transaction is still committed. -/
theorem c3_storage_failure_rollback (pksMap : List (String × List String)) (nCols : Nat)
    (qtn : String) (stmt : MatcherStmt) (pks : List SqliteValue) (eng : ChangeEngine) :
    (∀ e, (handle_change pksMap nCols qtn stmt pks eng).result = .error e →
        (handle_change pksMap nCols qtn stmt pks eng).committed = false)
    ∧ ((handle_change pksMap nCols qtn stmt pks eng).cellErrorLogged = true →
        (handle_change pksMap nCols qtn stmt pks eng).committed = false)
    ∧ ((handle_change pksMap nCols qtn stmt pks eng).committed = true →
        (handle_change pksMap nCols qtn stmt pks eng).result = .ok ()
        ∧ (handle_change pksMap nCols qtn stmt pks eng).cellErrorLogged = false)
    ∧ (∀ m, continuesAfterChange (.error (.sqlite m)) = true)
    ∧ (eng.noFailureExceptStep = true →
        (handle_change pksMap nCols qtn stmt pks eng).committed = true
        ∧ (handle_change pksMap nCols qtn stmt pks eng).result = .ok ()) := by
  obtain ⟨hcommit, hresult, hcell⟩ :=
    handle_change_failure_cases pksMap nCols qtn stmt pks eng
  refine ⟨hresult, hcell, hcommit, fun m => rfl, ?_⟩
  intro hnf
  simp only [ChangeEngine.noFailureExceptStep, Bool.and_eq_true] at hnf
  obtain ⟨⟨⟨⟨⟨⟨⟨⟨hbt, hpi⟩, hbfi⟩, hpd⟩, hbdf⟩, hir⟩, hdr⟩, hsends⟩, hcm⟩ := hnf
  rw [handle_change_clean pksMap nCols qtn stmt pks eng (exOk_eq_ok hbt) (exOk_eq_ok hpi)
      (Option.isNone_iff_eq_none.mp hbfi) (exOk_eq_ok hpd)
      (Option.isNone_iff_eq_none.mp hbdf) hir hdr hsends (exOk_eq_ok hcm)]
  exact ⟨rfl, rfl⟩

/-- C3 witness: the cells-deserialization failure leaves the transaction
uncommitted while `handle_change` returns `Ok`; the step-failure engine
(every other call succeeding) still commits. -/
theorem c3_storage_failure_rollback_witness :
    (handle_change pksMapFoo 1 "watches.query_ab" stmtFoo [.text "p"]
        engChangeBadCell).cellErrorLogged = true
    ∧ (handle_change pksMapFoo 1 "watches.query_ab" stmtFoo [.text "p"]
        engChangeBadCell).committed = false
    ∧ (handle_change pksMapFoo 1 "watches.query_ab" stmtFoo [.text "p"]
        engChangeStepErr).committed = true := by
  have h1 := (c3_storage_failure_rollback pksMapFoo 1 "watches.query_ab" stmtFoo
    [.text "p"] engChangeBadCell).2.1 rfl
  have h2 := ((c3_storage_failure_rollback pksMapFoo 1 "watches.query_ab" stmtFoo
    [.text "p"] engChangeStepErr).2.2.2.2 rfl).1
  exact ⟨rfl, h1, h2⟩

/-- C4: `Matcher::process_change` ignores changes for tables absent from
the `statements` map (returns `Ok`, enqueues nothing — the function touches
no database connection at all); for a present table it enqueues
`ProcessChange(stmt, pk_values)` on the bounded command channel, and
returns `ChangeQueueClosedOrFull` exactly when the channel is closed or
full (in which case nothing is enqueued). -/
theorem c4_process_change_routing (statements : List (String × MatcherStmt))
    (queueClosedOrFull : Bool) (agg : AggregateChange) :
    (slookup statements agg.table = none →
        process_change statements queueClosedOrFull agg = (.ok (), none))
    ∧ (∀ st, slookup statements agg.table = some st →
        process_change statements queueClosedOrFull agg
          = (if queueClosedOrFull then (.error .changeQueueClosedOrFull, none)
             else (.ok (), some (.processChange st (agg.pk.map Prod.snd))))
        ∧ ((process_change statements queueClosedOrFull agg).1
            = .error .changeQueueClosedOrFull ↔ queueClosedOrFull = true)) := by
  constructor
  · intro h
    simp [process_change, h]
  · intro st h
    constructor
    · simp [process_change, h]
    · cases queueClosedOrFull <;> simp [process_change, h]

/-- C4 witness: an absent table is ignored, a present table is enqueued,
and a closed-or-full channel yields `ChangeQueueClosedOrFull`. -/
theorem c4_process_change_routing_witness :
    process_change [("foo", stmtFoo)] false aggOther = (.ok (), none)
    ∧ process_change [("foo", stmtFoo)] false aggFoo
        = (.ok (), some (.processChange stmtFoo [.text "k1"]))
    ∧ process_change [("foo", stmtFoo)] true aggFoo
        = (.error .changeQueueClosedOrFull, none) := by
  refine ⟨(c4_process_change_routing [("foo", stmtFoo)] false aggOther).1 rfl, ?_, ?_⟩
  · exact (((c4_process_change_routing [("foo", stmtFoo)] false aggFoo).2 stmtFoo rfl).1).trans rfl
  · exact (((c4_process_change_routing [("foo", stmtFoo)] true aggFoo).2 stmtFoo rfl).1).trans rfl

/-- C5 counterexample: a SELECT whose `WHERE` clause is a bare `Name`
expression (`SELECT 1 FROM foo WHERE x`) makes the analysis hit the
source's `todo!()` — it terminates abnormally instead of returning the
`UnsupportedExpr` error the claim promises. -/
theorem c5_counterexample :
    extract_select_columns 10 selBareName schemaFoo = .panic "not yet implemented" := rfl

/-- C5 (amended): when the analyzer's expression walk reaches an `InTable`
expression it fails with `UnsupportedExpr` carrying that expression, but
when it reaches a bare `Name` expression it terminates abnormally through
the unimplemented `todo!()` branch, not with `UnsupportedExpr`. -/
theorem c5_unsupported_expr_shapes (fuel : Nat) (schema : NormalizedSchema)
    (parsed : ParsedSelect) :
    (∀ (lhs : Expr) (notIn : Bool) (tbl : String) (args : Option (List Expr)),
        extract_expr_columns fuel (.inTable lhs notIn tbl args) schema parsed
          = .err (.unsupportedExpr (.inTable lhs notIn tbl args)))
    ∧ (∀ n : String,
        extract_expr_columns fuel (.name n) schema parsed
          = .panic "not yet implemented") := by
  constructor
  · intro lhs notIn tbl args
    cases fuel <;> rfl
  · intro n
    cases fuel <;> rfl

/-- C6: over a schema containing only `foo`, the query
`SELECT foo.a FROM foo JOIN bar USING (x)` passes analysis — the JOIN
branch records `bar` in `table_columns` without any schema check — and
`Matcher::new` then panics at its
`.expect("this should not happen, missing table in schema")` instead of
failing with `TableNotFound("bar")` as the claim (and the code's own
assertion message) requires. -/
theorem c6_join_table_unchecked :
    extract_select_columns 10 selJoinBar schemaFoo
      = .ok (.mk [("foo", ["a"]), ("bar", ["x"])] []
          [.expr (.qualified "foo" "a") (some (.asAlias "col_0"))] [])
    ∧ slookup schemaFoo.tables "bar" = none
    ∧ Matcher.new 10 envJoinBar schemaFoo serSemi "ab"
        = .panic "this should not happen, missing table in schema" :=
  ⟨rfl, rfl, rfl⟩

/-- C7 counterexample: when the cancellation handle is tripped, the event
loop exits through the `select!` arm's `return`, which skips the
`DROP TABLE` cleanup below the loop — the loop terminates with no drop
attempted, contradicting the claim that every termination drops the shadow
table. -/
theorem c7_counterexample :
    (runLoop [.cancelTripped] (.ok ())).ended = true
    ∧ (runLoop [.cancelTripped] (.ok ())).dropAttempted = false :=
  ⟨rfl, rfl⟩

/-- C7 (amended): the best-effort `DROP TABLE` runs exactly when the event
loop exits via `break` — an `Unsubscribe` with zero broadcast receivers, or
`handle_change` failing with `ChangeReceiverClosed`; termination via the
cancellation handle returns without dropping.  The drop's own failure never
changes the loop outcome (it is logged at warn level, not propagated): the
termination state is identical whether the drop succeeds or fails, and a
failing drop that was attempted is always recorded as warned. -/
theorem c7_drop_only_on_break (events : List LoopEvent) (dropResult : Except String Unit) :
    ((runLoop events dropResult).dropAttempted
        = ((runLoop events dropResult).ended && (runLoop events dropResult).viaBreak))
    ∧ ((runLoop events dropResult).ended = (runLoop events (.ok ())).ended)
    ∧ ((runLoop events dropResult).viaBreak = (runLoop events (.ok ())).viaBreak)
    ∧ (∀ e, dropResult = .error e →
        (runLoop events dropResult).dropAttempted = true →
        (runLoop events dropResult).dropWarned = true) := by
  induction events with
  | nil => simp [runLoop]
  | cons ev rest ih =>
    cases ev with
    | cancelTripped => simp [runLoop]
    | cmd c =>
      cases c with
      | processChange res =>
        by_cases h : continuesAfterChange res = true
        · simpa [runLoop, h] using ih
        · rcases dropResult with e | u <;>
            simp [runLoop, h, finishDrop]
      | unsubscribe n =>
        by_cases h : n = 0
        · subst h
          rcases dropResult with e | u <;>
            simp [runLoop, finishDrop]
        · simpa [runLoop, h] using ih

/-- C7 witness: an `Unsubscribe` with zero receivers attempts the drop and
a failing drop is logged at warn level. -/
theorem c7_drop_only_on_break_witness :
    (runLoop [.cmd (.unsubscribe 0)] (.error "drop failed")).dropAttempted = true
    ∧ (runLoop [.cmd (.unsubscribe 0)] (.error "drop failed")).dropWarned = true :=
  ⟨rfl,
   (c7_drop_only_on_break [.cmd (.unsubscribe 0)] (.error "drop failed")).2.2.2
     "drop failed" rfl rfl⟩

/-- C8: for every matcher successfully built by `Matcher::new` and every
table `T` in its statements map, `T` exists in the schema with a non-empty
primary key, the PK-filter produced for it is exactly the spec's
conjunction of `T.pk_i IS ?` comparisons (using `IS`, over the query's
alias for `T` when one exists), `new_query` is the serialized rewritten AST
with its final character removed — so whenever the serialization ends in
`;`, `new_query` is precisely that text without the trailing semicolon —
and the rewrite ANDs the PK-filter into the WHERE clause, preserving any
pre-existing condition as the right operand. -/
theorem c8_new_query_rewrite (fuel : Nat) (env : MatcherNewEnv)
    (schema : NormalizedSchema) (ser : Cmd → String) (idHex : String)
    (rec : MatcherRecord)
    (hok : Matcher.new fuel env schema ser idHex = .ok rec) :
    ∀ t ms, (t, ms) ∈ rec.statements →
      ∃ tbl p ps f,
        slookup schema.tables t = some tbl
        ∧ tbl.pk = p :: ps
        ∧ f = specPkFilter ((reverseAliasLookup rec.parsed.aliases t).getD t) p ps
        ∧ table_to_expr rec.parsed.aliases tbl t = .ok f
        ∧ ms.new_query = strPop (ser (.stmt (applyPkExpr rec.query f)))
        ∧ (∀ s, ser (.stmt (applyPkExpr rec.query f)) = s ++ ";" → ms.new_query = s)
        ∧ (∀ cols fr wc, rec.query = .select (.mk (.mk (.select cols fr wc))) →
            applyPkExpr rec.query f
              = .select (.mk (.mk (.select cols fr
                  (some (match wc with
                         | some prev => Expr.binary f .and prev
                         | none => f)))))) := by
  intro t ms hm
  obtain ⟨cn, sp, stmt', hprep, hana, hne, hset, hbs, hq, hparsed, hcn⟩ :=
    matcher_new_ok_inv hok
  obtain ⟨tbl, e, hlook, hte, hnq⟩ := buildStatements_mem hbs hm
  rcases hpk : tbl.pk with _ | ⟨p, ps⟩
  · rw [table_to_expr_no_pk _ _ _ hpk] at hte
    cases hte
  · have hspec := table_to_expr_spec sp.2.aliases tbl t p ps hpk
    rw [hte] at hspec
    have hef : e = specPkFilter ((reverseAliasLookup sp.2.aliases t).getD t) p ps :=
      Except.ok.inj hspec
    refine ⟨tbl, p, ps, e, hlook, hpk, ?_, ?_, ?_, ?_, ?_⟩
    · rw [hparsed]
      exact hef
    · rw [hparsed]
      exact hte
    · rw [hq]
      exact hnq
    · intro s hs
      rw [hq] at hs
      rw [hnq, hs, strPop_concat]
    · intro cols fr wc hq2
      rw [hq2]
      rfl

/-- C8 witness: for the matcher built over `SELECT foo.a FROM foo`, whose
serialization is `"SELECT 1;"`, the registered `new_query` is exactly
`"SELECT 1"` (the trailing semicolon removed). -/
theorem c8_new_query_rewrite_witness :
    ("foo", msFooA) ∈ recFooA.statements ∧ msFooA.new_query = "SELECT 1" := by
  have hmem : ("foo", msFooA) ∈ recFooA.statements := List.mem_cons_self _ _
  obtain ⟨tbl, p, ps, f, h1, h2, h3, h4, h5, h6, h7⟩ :=
    c8_new_query_rewrite 10 envFooA schemaFoo serSemi "ab" recFooA rfl "foo" msFooA hmem
  exact ⟨hmem, h6 "SELECT 1" rfl⟩

/-- C9 counterexample: over a schema whose table `t` declares no primary
key, `SELECT c.x FROM t AS c` makes `Matcher::new` fail with
`NoPrimaryKey("c")` — the error names the query's ALIAS `c`, not the
referenced table `t` as the claim states. -/
theorem c9_counterexample :
    Matcher.new 10 envAliasNoPk schemaNoPk serSemi "ab" = .err (.noPrimaryKey "c")
    ∧ "c" ≠ "t" :=
  ⟨rfl, by decide⟩

/-- C9 (amended): if a base table referenced by the SELECT has no declared
primary-key column, the PK-filter construction fails with `NoPrimaryKey`
naming the query's alias for that table when one exists (otherwise the
table name), and when such a table heads the analyzed table list,
`Matcher::new` propagates that error — no matcher is returned. -/
theorem c9_no_primary_key (aliases : List (String × String)) (tbl0 : NormalizedTable)
    (t0 : String) (hpk0 : tbl0.pk = [])
    (fuel : Nat) (env : MatcherNewEnv) (schema : NormalizedSchema) (ser : Cmd → String)
    (idHex : String) (col_names : List String) (stmt : Stmt) (parsed : ParsedSelect)
    (t : String) (cs : List String) (rest : List (String × List String))
    (tbl : NormalizedTable) :
    table_to_expr aliases tbl0 t0
      = .error (.noPrimaryKey ((reverseAliasLookup aliases t0).getD t0))
    ∧ (env.prep = .ok col_names →
       analyze_cmd fuel env.parseResult schema = .ok (stmt, parsed) →
       parsed.table_columns = (t, cs) :: rest →
       slookup schema.tables t = some tbl →
       tbl.pk = [] →
       Matcher.new fuel env schema ser idHex
         = .err (.noPrimaryKey ((reverseAliasLookup parsed.aliases t).getD t))) := by
  refine ⟨table_to_expr_no_pk aliases tbl0 t0 hpk0, ?_⟩
  intro hprep hana htc hlook hpk
  obtain ⟨sel, hsel, hext⟩ := analyze_cmd_ok_inv hana
  simp only at hsel
  subst hsel
  obtain ⟨⟨os⟩⟩ := sel
  cases os with
  | values =>
      simp only [extract_select_columns, Outcome.ok.injEq] at hext
      rw [← hext] at htc
      simp [ParsedSelect.default, ParsedSelect.table_columns] at htc
  | select c f w =>
      simp only [Matcher.new, hprep, hana, Outcome.bind]
      simp only [htc, List.isEmpty_cons, Bool.false_eq_true, if_false, setColumns,
        Outcome.bind, buildStatements, hlook, table_to_expr_no_pk parsed.aliases tbl t hpk,
        Outcome.ofExcept]

/-- C9 witness: the amended statement applied to the concrete aliased
no-PK query. -/
theorem c9_no_primary_key_witness :
    Matcher.new 10 envAliasNoPk schemaNoPk serSemi "ab" = .err (.noPrimaryKey "c") := by
  have h := (c9_no_primary_key [("c", "t")] ⟨"t", ["x"], []⟩ "t" rfl 10 envAliasNoPk
    schemaNoPk serSemi "ab" ["c0"] (.select selAliasNoPk) parsedAliasNoPk "t" ["x"] []
    ⟨"t", ["x"], []⟩).2 rfl rfl rfl rfl rfl
  exact h.trans rfl

/-- C10: `Matcher::new` prepares the raw SQL on the connection before any
parsing or analysis, so an input the engine rejects at prepare time yields
the wrapped `Sqlite` error regardless of what the parser would have said —
no parse or analysis error is ever produced for it — and on success the
matcher's emitted column names (the first init message is
`Columns(col_names)`) are exactly the prepared statement's column names. -/
theorem c10_prepare_before_parse (fuel : Nat) (e : String)
    (pr : Except String (Option Cmd)) (ddl : Except String Unit)
    (schema : NormalizedSchema) (ser : Cmd → String) (idHex : String)
    (env : MatcherNewEnv) (names : List String) :
    Matcher.new fuel ⟨.error e, pr, ddl⟩ schema ser idHex = .err (.sqlite e)
    ∧ (env.prep = .ok names →
        ∀ rec, Matcher.new fuel env schema ser idHex = .ok rec →
          rec.col_names = names
          ∧ ∀ eng, (snapshotTask rec.col_names eng).head? = some (.columns names)) := by
  constructor
  · rfl
  · intro hprep rec hok
    obtain ⟨cn, sp, stmt', hprep', hana, hne, hset, hbs, hq, hparsed, hcn⟩ :=
      matcher_new_ok_inv hok
    have hcneq : cn = names := by
      rw [hprep] at hprep'
      exact (Except.ok.inj hprep').symm
    have hrecnames : rec.col_names = names := by rw [hcn, hcneq]
    refine ⟨hrecnames, fun eng => ?_⟩
    rw [hrecnames]
    exact snapshotTask_head names eng

/-- C10 witness: a failing prepare wraps the engine error even though the
parser would have reported `StatementRequired`; the successful matcher's
column names are the prepared statement's. -/
theorem c10_prepare_before_parse_witness :
    Matcher.new 10 ⟨.error "prep failed", .ok none, .ok ()⟩ schemaFoo serSemi "ab"
      = .err (.sqlite "prep failed")
    ∧ recFooA.col_names = ["n1", "n2"] :=
  ⟨(c10_prepare_before_parse 10 "prep failed" (.ok none) (.ok ()) schemaFoo serSemi "ab"
      envFooA ["n1", "n2"]).1,
   ((c10_prepare_before_parse 10 "x" (.ok none) (.ok ()) schemaFoo serSemi "ab"
      envFooA ["n1", "n2"]).2 rfl recFooA rfl).1⟩

end Corrosion
